import Mathlib

/-!
# Verification of the email-template gallery (`script.js`)

Shallow embedding of the browser-side template gallery: the template data
model, the filter/search pipeline (`renderList`), the modal navigation state
machine, the clipboard copy text, the translation client
(`translateTextForce`), the HTML escaper (`escapeHtml`), the card preview
truncation, and the load orchestration (`fetchTemplates`).

JavaScript strings are modelled as Lean `String`s (lists of characters);
absent (`undefined`) fields are modelled with `Option`.  The remote
translation endpoint is modelled by an explicit outcome oracle.  All state
lives in an explicit `AppState` record mirroring the module-scope mutable
variables of the script.
-/

namespace EmailTemplates

/-- A source template record: `{ subject, body, category }` where `category`
may be absent (`undefined` in the script, `none` here). -/
structure Template where
  subject : String
  body : String
  category : Option String
  deriving Repr, DecidableEq

/-- The module-scope mutable state of `script.js`: `templates`, `displayed`,
`modalIndex` (a JS number, `-1` when the modal is closed), the selected
target language, the category dropdown contents, and whether the loading
indicator is visible. -/
structure AppState where
  templates : List Template
  displayed : List Template
  modalIndex : Int
  targetLang : String
  categories : List String
  loadingVisible : Bool
  deriving Repr, DecidableEq

/-- JS `String.prototype.toLowerCase`, modelled character-wise. -/
def lowerStr (s : String) : String :=
  ⟨s.data.map Char.toLower⟩

/-- JS `haystack.includes(needle)`: substring containment. -/
def strIncludes (hay needle : String) : Bool :=
  decide (List.IsInfix needle.data hay.data)

/-- The search haystack built by `renderList`:
`t.subject + " " + t.body + " " + (t.category || "")`. -/
def searchHaystack (t : Template) : String :=
  t.subject ++ " " ++ t.body ++ " " ++ t.category.getD ""

/-- The filter predicate of `renderList` (src/script.js lines 154-159),
translated clause by clause:
`if (filterCategory !== "All" && t.category !== filterCategory) return false;
 if (!q) return true;
 return (t.subject + " " + t.body + " " + (t.category || "")).toLowerCase().includes(q);`
where `q = (search || "").toLowerCase()`. -/
def renderListPred (filterCategory search : String) (t : Template) : Bool :=
  let q := lowerStr search
  if filterCategory ≠ "All" ∧ t.category ≠ some filterCategory then false
  else if q = "" then true
  else strIncludes (lowerStr (searchHaystack t)) q

/-- `renderList(filterCategory, search)` (src/script.js lines 152-172): rebuilds
`displayed` from `templates` via the filter predicate.  DOM writes
(`listEl.innerHTML`, the count display) carry no model state. -/
def renderList (filterCategory search : String) (s : AppState) : AppState :=
  { s with displayed := s.templates.filter (renderListPred filterCategory search) }

/-- The predicate C1 states, in the spec's own words: category equals the
selected category or the selected category is "All", and the search string is
empty or the case-insensitive concatenation of subject, body and category
contains the search string as a substring. -/
def specFilterPred (filterCategory search : String) (t : Template) : Bool :=
  (decide (filterCategory = "All") || decide (t.category = some filterCategory)) &&
  (decide (search = "") || strIncludes (lowerStr (searchHaystack t)) (lowerStr search))

lemma lowerStr_eq_empty_iff (s : String) : lowerStr s = "" ↔ s = "" := by
  rw [String.ext_iff, String.ext_iff]
  simp [lowerStr]

lemma renderListPred_eq_spec (filterCategory search : String) (t : Template) :
    renderListPred filterCategory search t = specFilterPred filterCategory search t := by
  unfold renderListPred specFilterPred
  by_cases hc : filterCategory = "All"
  · subst hc
    by_cases hq : search = ""
    · subst hq; simp [lowerStr]
    · have : lowerStr search ≠ "" := fun h => hq ((lowerStr_eq_empty_iff search).mp h)
      simp [hq, this]
  · by_cases hcat : t.category = some filterCategory
    · by_cases hq : search = ""
      · subst hq; simp [hc, hcat, lowerStr]
      · have : lowerStr search ≠ "" := fun h => hq ((lowerStr_eq_empty_iff search).mp h)
        simp [hc, hcat, hq, this]
    · simp [hc, hcat]

/-- C1: `renderList` sets `displayed` to exactly the ordered subsequence of
`templates` whose entries match the selected category (or the selected
category is "All") and, when the search string is nonempty, whose
case-insensitive subject/body/category concatenation contains the search
string; original order is preserved (the result is a sublist of `templates`)
and `templates` itself is left unmodified. -/
theorem renderList_sets_displayed_to_filter (filterCategory search : String) (s : AppState) :
    (renderList filterCategory search s).displayed
        = s.templates.filter (specFilterPred filterCategory search)
    ∧ List.Sublist (renderList filterCategory search s).displayed s.templates
    ∧ (renderList filterCategory search s).templates = s.templates := by
  refine ⟨?_, ?_, rfl⟩
  · show s.templates.filter (renderListPred filterCategory search)
        = s.templates.filter (specFilterPred filterCategory search)
    exact List.filter_congr (fun t _ => renderListPred_eq_spec filterCategory search t)
  · exact List.filter_sublist s.templates

/-! ## Modal controller (src/script.js lines 232-278) -/

/-- `openModalByIndex(index)`: out-of-range indices are rejected before any
state change (`if (index < 0 || index >= displayed.length) return;`). -/
def openModalByIndex (index : Int) (s : AppState) : AppState :=
  if index < 0 ∨ (s.displayed.length : Int) ≤ index then s
  else { s with modalIndex := index }

/-- `showPrevModal()`: decrements `modalIndex` only when it is positive. -/
def showPrevModal (s : AppState) : AppState :=
  if 0 < s.modalIndex then { s with modalIndex := s.modalIndex - 1 } else s

/-- `showNextModal()`: increments `modalIndex` only when it is below
`displayed.length - 1`. -/
def showNextModal (s : AppState) : AppState :=
  if s.modalIndex < (s.displayed.length : Int) - 1 then
    { s with modalIndex := s.modalIndex + 1 }
  else s

/-- `closeModal()`: resets `modalIndex` to `-1`. -/
def closeModal (s : AppState) : AppState :=
  { s with modalIndex := -1 }

/-- The user-triggerable modal transitions. -/
inductive ModalOp where
  | openModal (i : Int)
  | prevModal
  | nextModal
  | closeModal
  deriving Repr, DecidableEq

/-- One modal transition. -/
def modalStep (s : AppState) (op : ModalOp) : AppState :=
  match op with
  | .openModal i => openModalByIndex i s
  | .prevModal => showPrevModal s
  | .nextModal => showNextModal s
  | .closeModal => closeModal s

/-- The modal invariant: either closed (`-1`) or an in-range index. -/
def modalInv (s : AppState) : Prop :=
  s.modalIndex = -1 ∨ (0 ≤ s.modalIndex ∧ s.modalIndex < (s.displayed.length : Int))

lemma modalStep_displayed (s : AppState) (op : ModalOp) :
    (modalStep s op).displayed = s.displayed := by
  cases op <;>
    simp only [modalStep, openModalByIndex, showPrevModal, showNextModal, closeModal] <;>
    split <;> rfl

lemma modalStep_inv (s : AppState) (op : ModalOp) (h : modalInv s) :
    modalInv (modalStep s op) := by
  cases op with
  | openModal i =>
    simp only [modalStep, openModalByIndex]
    split
    · exact h
    · right; dsimp only [modalInv]; constructor <;> omega
  | prevModal =>
    simp only [modalStep, showPrevModal]
    split
    · rcases h with h | h
      · omega
      · right; dsimp only [modalInv]; constructor <;> omega
    · exact h
  | nextModal =>
    simp only [modalStep, showNextModal]
    split
    · right; dsimp only [modalInv]
      rcases h with h | h <;> constructor <;> omega
    · exact h
  | closeModal =>
    left; rfl

lemma foldl_modalStep_inv (ops : List ModalOp) (s : AppState) (h : modalInv s) :
    modalInv (ops.foldl modalStep s) := by
  induction ops generalizing s with
  | nil => exact h
  | cons op rest ih => exact ih (modalStep s op) (modalStep_inv s op h)

/-- C2: opening with an out-of-range index is a no-op; `prev` at index 0 and
`next` at the last index are no-ops; and from any closed state, every
reachable open state (nonnegative `modalIndex`) has its index strictly below
the length of `displayed`. -/
theorem modal_navigation_stays_in_bounds :
    (∀ (s : AppState) (i : Int),
        (i < 0 ∨ (s.displayed.length : Int) ≤ i) → openModalByIndex i s = s)
    ∧ (∀ s : AppState, s.modalIndex = 0 → showPrevModal s = s)
    ∧ (∀ s : AppState,
        s.modalIndex = (s.displayed.length : Int) - 1 → showNextModal s = s)
    ∧ (∀ (s₀ : AppState) (ops : List ModalOp), s₀.modalIndex = -1 →
        0 ≤ (ops.foldl modalStep s₀).modalIndex →
        (ops.foldl modalStep s₀).modalIndex
          < ((ops.foldl modalStep s₀).displayed.length : Int)) := by
  refine ⟨?_, ?_, ?_, ?_⟩
  · intro s i hi
    simp only [openModalByIndex, if_pos hi]
  · intro s h
    simp only [showPrevModal, h]
    norm_num
  · intro s h
    simp only [showNextModal, h]
    norm_num
  · intro s₀ ops h0 hopen
    have hinv := foldl_modalStep_inv ops s₀ (Or.inl h0)
    rcases hinv with h | h
    · omega
    · exact h.2

/-! ## Clipboard copy text (src/script.js lines 119-136 and 204-216) -/

/-- The full email assembled by the card copy handler (line 122), with the
inline `targetLang === "en"` ternaries for greeting and closing. -/
def cardCopyText (lang : String) (t : Template) : String :=
  "Subject: " ++ t.subject ++ "\n\n" ++
    (if lang = "en" then "Good day Sir/Ma\u0027am," else "ご担当者様") ++ "\n\n" ++
    t.body ++ "\n\n" ++
    (if lang = "en" then "Best regards," else "よろしくお願いいたします") ++
    "\n[Your Name]"

/-- The modal copy handler (lines 204-216): guarded by
`if (modalIndex < 0 || !displayed[modalIndex]) return;`, then assembles the
same full email from `displayed[modalIndex]`. -/
def modalCopyText (s : AppState) : Option String :=
  if s.modalIndex < 0 then none
  else
    match s.displayed[s.modalIndex.toNat]? with
    | none => none
    | some t =>
      some ("Subject: " ++ t.subject ++ "\n\n" ++
        (if s.targetLang = "en" then "Good day Sir/Ma\u0027am," else "ご担当者様") ++
        "\n\n" ++ t.body ++ "\n\n" ++
        (if s.targetLang = "en" then "Best regards," else "よろしくお願いいたします") ++
        "\n[Your Name]")

/-- The language-selected greeting. -/
def greetingFor (lang : String) : String :=
  if lang = "en" then "Good day Sir/Ma\u0027am," else "ご担当者様"

/-- The language-selected closing. -/
def closingFor (lang : String) : String :=
  if lang = "en" then "Best regards," else "よろしくお願いいたします"

/-- The fixed email layout the spec states:
`Subject: {S}\n\n{greeting}\n\n{B}\n\n{closing}\n[Your Name]`. -/
def specEmailText (lang subject body : String) : String :=
  "Subject: " ++ subject ++ "\n\n" ++ greetingFor lang ++ "\n\n" ++ body ++
    "\n\n" ++ closingFor lang ++ "\n[Your Name]"

/-- C3: for every template and language, the card copy action and the modal
copy action (for the open template) both write exactly
`Subject: {S}\n\n{greeting}\n\n{B}\n\n{closing}\n[Your Name]` with the
language-selected greeting/closing pair. -/
theorem copy_text_matches_fixed_layout :
    (∀ (lang : String) (t : Template),
        cardCopyText lang t = specEmailText lang t.subject t.body)
    ∧ (∀ (s : AppState) (i : Nat) (t : Template),
        s.modalIndex = (i : Int) → s.displayed[i]? = some t →
        modalCopyText s = some (specEmailText s.targetLang t.subject t.body)) := by
  constructor
  · intro lang t; rfl
  · intro s i t hidx hget
    have h0 : ¬ s.modalIndex < 0 := by omega
    have htn : s.modalIndex.toNat = i := by omega
    simp only [modalCopyText, if_neg h0, htn, hget]
    rfl

/-- Concrete instantiation of `copy_text_matches_fixed_layout`. -/
def tCopyW : Template := { subject := "Intro", body := "Hello", category := some "Sales" }

/-- State with the modal open on `tCopyW` at index 0. -/
def sCopyW : AppState :=
  { templates := [tCopyW], displayed := [tCopyW], modalIndex := 0,
    targetLang := "en", categories := ["All", "Sales"], loadingVisible := false }

theorem copy_text_matches_fixed_layout_witness :
    modalCopyText sCopyW = some (specEmailText sCopyW.targetLang tCopyW.subject tCopyW.body) :=
  copy_text_matches_fixed_layout.2 sCopyW 0 tCopyW (by decide) rfl

/-! ## Translation client (src/script.js lines 49-68) -/

/-- The JSON request body `{q, source: "auto", target, format: "text"}` sent
to the translation endpoint. -/
structure TranslateRequest where
  q : String
  source : String
  target : String
  format : String
  deriving Repr, DecidableEq

/-- Outcome of one `fetch` of the translation endpoint, as observed by
`translateTextForce`: the transport may fail (`fetch` rejects), the body may
fail to parse as JSON (`res.json()` rejects), or a JSON response arrives
whose `translatedText` field is absent (`none`) or a string. -/
inductive FetchOutcome where
  | networkError
  | jsonError
  | response (translatedText : Option String)
  deriving Repr, DecidableEq

/-- `translateTextForce(text, lang)` (lines 49-68): returns `""` immediately
for empty input (no request is issued, second component `none`); otherwise
issues one request and returns `data.translatedText || text`, and on any
thrown error returns `text`.  The second component records the request made,
`none` when no network call happens. -/
def translateTextForce (text lang : String) (outcome : FetchOutcome) :
    String × Option TranslateRequest :=
  if text = "" then ("", none)
  else
    let req : TranslateRequest :=
      { q := text, source := "auto", target := lang, format := "text" }
    match outcome with
    | .networkError => (text, some req)
    | .jsonError => (text, some req)
    | .response none => (text, some req)
    | .response (some tr) => ((if tr = "" then text else tr), some req)

/-- C4: `translateTextForce` returns the empty string with no network call
when the input text is empty, and on a transport error, a JSON-parsing
error, or a response lacking the translated-text field it returns the
original input text unchanged (it never throws: it is a total function). -/
theorem translateTextForce_degrades_silently :
    (∀ (lang : String) (outcome : FetchOutcome),
        translateTextForce "" lang outcome = ("", none))
    ∧ (∀ (text lang : String),
        (translateTextForce text lang .networkError).1 = text
        ∧ (translateTextForce text lang .jsonError).1 = text
        ∧ (translateTextForce text lang (.response none)).1 = text) := by
  constructor
  · intro lang outcome; rfl
  · intro text lang
    by_cases h : text = "" <;> simp [translateTextForce, h]

/-- A "Sales" template, used to build concrete states. -/
def tSales : Template := { subject := "A", body := "alpha", category := some "Sales" }

/-- A "Support" template, used to build concrete states. -/
def tSupport : Template := { subject := "B", body := "beta", category := some "Support" }

/-- A closed-modal state over a two-element displayed list. -/
def sModalW : AppState :=
  { templates := [tSales, tSupport], displayed := [tSales, tSupport], modalIndex := -1,
    targetLang := "en", categories := ["All", "Sales", "Support"], loadingVisible := false }

theorem modal_navigation_stays_in_bounds_witness :
    openModalByIndex 5 sModalW = sModalW
    ∧ showPrevModal { sModalW with modalIndex := 0 } = { sModalW with modalIndex := 0 }
    ∧ showNextModal { sModalW with modalIndex := 1 } = { sModalW with modalIndex := 1 }
    ∧ ([ModalOp.openModal 1, ModalOp.nextModal].foldl modalStep sModalW).modalIndex
        < (([ModalOp.openModal 1, ModalOp.nextModal].foldl modalStep sModalW).displayed.length : Int) :=
  ⟨modal_navigation_stays_in_bounds.1 sModalW 5 (Or.inr (by decide)),
   modal_navigation_stays_in_bounds.2.1 _ (by decide),
   modal_navigation_stays_in_bounds.2.2.1 _ (by decide),
   modal_navigation_stays_in_bounds.2.2.2 sModalW _ (by decide) (by decide)⟩

/-! ## HTML escaping (src/script.js lines 84-91) -/

/-- JS `str.replace(/c/g, rep)` for a single-character pattern `c`: every
occurrence of `c` is replaced by `rep`. -/
def replaceAllChar (c : Char) (rep : List Char) (l : List Char) : List Char :=
  l.flatMap fun d => if d = c then rep else [d]

/-- The apostrophe character escaped by `escapeHtml`. -/
def quoteChar : Char := Char.ofNat 39

/-- `escapeHtml` on character data: the five sequential global replacements,
ampersand first, in source order. -/
def escapeHtmlData (l : List Char) : List Char :=
  replaceAllChar quoteChar "&#039;".data
    (replaceAllChar '"' "&quot;".data
      (replaceAllChar '>' "&gt;".data
        (replaceAllChar '<' "&lt;".data
          (replaceAllChar '&' "&amp;".data l))))

/-- `escapeHtml(str)` (lines 84-91): `String(str || "")` treats an absent
value as the empty string, then the five replacements run in order. -/
def escapeHtml (str : Option String) : String :=
  ⟨escapeHtmlData (str.getD "").data⟩

/-- The per-character escape the spec describes: each of the five special
characters becomes its character reference, all other characters are kept. -/
def escCharRef (c : Char) : List Char :=
  if c = '&' then "&amp;".data
  else if c = '<' then "&lt;".data
  else if c = '>' then "&gt;".data
  else if c = '"' then "&quot;".data
  else if c = quoteChar then "&#039;".data
  else [c]

/-- Single-pass escaping: the spec's reading of the contract. -/
def escapeHtmlSpecData (l : List Char) : List Char :=
  l.flatMap escCharRef

lemma replaceAllChar_append (c : Char) (rep l₁ l₂ : List Char) :
    replaceAllChar c rep (l₁ ++ l₂) = replaceAllChar c rep l₁ ++ replaceAllChar c rep l₂ := by
  simp [replaceAllChar]

lemma escapeHtmlData_append (l₁ l₂ : List Char) :
    escapeHtmlData (l₁ ++ l₂) = escapeHtmlData l₁ ++ escapeHtmlData l₂ := by
  simp [escapeHtmlData, replaceAllChar_append]

lemma escapeHtmlData_singleton (c : Char) : escapeHtmlData [c] = escCharRef c := by
  by_cases h1 : c = '&'
  · subst h1; decide
  · by_cases h2 : c = '<'
    · subst h2; decide
    · by_cases h3 : c = '>'
      · subst h3; decide
      · by_cases h4 : c = '"'
        · subst h4; decide
        · by_cases h5 : c = quoteChar
          · subst h5; decide
          · simp [escapeHtmlData, replaceAllChar, escCharRef, h1, h2, h3, h4, h5]

lemma escapeHtmlData_eq_spec (l : List Char) :
    escapeHtmlData l = escapeHtmlSpecData l := by
  induction l with
  | nil => rfl
  | cons c l ih =>
    have hsplit : c :: l = [c] ++ l := rfl
    rw [hsplit, escapeHtmlData_append, escapeHtmlData_singleton, ih]
    simp [escapeHtmlSpecData]

/-- C5: `escapeHtml` is a total pure function that, for every input string,
returns the string with `&`, `<`, `>`, `"` and the apostrophe each replaced
by its character reference (`&amp;` `&lt;` `&gt;` `&quot;` `&#039;`), the
sequential replacements (ampersand first) coinciding with a single
per-character pass; an absent input is treated as the empty string. -/
theorem escapeHtml_escapes_five_characters :
    (∀ s : String, escapeHtml (some s) = ⟨escapeHtmlSpecData s.data⟩)
    ∧ escapeHtml none = "" := by
  constructor
  · intro s
    exact congrArg String.mk (escapeHtmlData_eq_spec s.data)
  · rfl

/-! ## Card preview truncation (src/script.js line 98) -/

/-- `const previewText = (t.body || "").length > 140 ? (t.body.slice(0, 140) + "…") : t.body;` -/
def previewText (t : Template) : String :=
  if 140 < t.body.length then ⟨t.body.data.take 140⟩ ++ "…" else t.body

/-- C6: when the body exceeds 140 characters the preview is exactly the
first 140 characters followed by one ellipsis character (141 characters in
total); when the body has at most 140 characters the preview is the body
verbatim. -/
theorem previewText_truncates_at_140 (t : Template) :
    (140 < t.body.length →
        previewText t = ⟨t.body.data.take 140⟩ ++ "…"
        ∧ (previewText t).length = 141)
    ∧ (t.body.length ≤ 140 → previewText t = t.body) := by
  constructor
  · intro h
    refine ⟨if_pos h, ?_⟩
    rw [previewText, if_pos h]
    have hmk : (⟨t.body.data.take 140⟩ ++ "…" : String) = ⟨t.body.data.take 140 ++ ['…']⟩ := by
      apply String.ext
      rw [String.data_append]
    have hlen : t.body.length = t.body.data.length := rfl
    rw [hmk, String.length_mk, List.length_append, List.length_take]
    rw [hlen] at h
    simp
    omega
  · intro h
    rw [previewText, if_neg (by omega)]

/-- A template with a 200-character body. -/
def tLongW : Template :=
  { subject := "Intro", body := ⟨List.replicate 200 'x'⟩, category := some "Sales" }

/-- A template with a short body. -/
def tShortW : Template := { subject := "S", body := "short", category := none }

set_option maxRecDepth 4000 in
theorem previewText_truncates_at_140_witness :
    (previewText tLongW).length = 141 ∧ previewText tShortW = tShortW.body :=
  ⟨((previewText_truncates_at_140 tLongW).1 (by decide)).2,
   (previewText_truncates_at_140 tShortW).2 (by decide)⟩

/-! ## Category dropdown (src/script.js lines 71-81) -/

/-- One step of `templates.forEach(t => set.add(t.category || "General"))`:
JS `Set` insertion keeps first-occurrence order and ignores duplicates. -/
def insertCat (acc : List String) (t : Template) : List String :=
  let c := t.category.getD "General"
  if c ∈ acc then acc else acc ++ [c]

/-- `populateCategories()`: the dropdown contents, starting from `{"All"}`
and adding `t.category || "General"` for each template in order. -/
def populateCategories (ts : List Template) : List String :=
  ts.foldl insertCat ["All"]

lemma mem_insertCat_of_mem (c : String) (acc : List String) (t : Template)
    (h : c ∈ acc) : c ∈ insertCat acc t := by
  by_cases hc : t.category.getD "General" ∈ acc
  · simp [insertCat, hc, h]
  · simp [insertCat, hc]
    exact Or.inl h

lemma getD_mem_insertCat (acc : List String) (t : Template) :
    t.category.getD "General" ∈ insertCat acc t := by
  by_cases hc : t.category.getD "General" ∈ acc
  · simp [insertCat, hc]
  · simp [insertCat, hc]

lemma mem_foldl_insertCat (ts : List Template) (acc : List String) (c : String)
    (h : c ∈ acc) : c ∈ ts.foldl insertCat acc := by
  induction ts generalizing acc with
  | nil => exact h
  | cons t rest ih => exact ih (insertCat acc t) (mem_insertCat_of_mem c acc t h)

lemma cat_mem_foldl_insertCat (ts : List Template) (t : Template) (h : t ∈ ts) :
    ∀ acc : List String, t.category.getD "General" ∈ ts.foldl insertCat acc := by
  induction ts with
  | nil => cases h
  | cons hd rest ih =>
    intro acc
    rw [List.foldl_cons]
    rcases List.mem_cons.mp h with h1 | h1
    · subst h1
      exact mem_foldl_insertCat rest _ _ (getD_mem_insertCat acc _)
    · exact ih h1 (insertCat acc hd)

/-! ## Load orchestration (src/script.js lines 281-305) -/

/-- One element of the `Promise.all` fan-out (lines 288-292): the template
with subject and body passed through `translateTextForce`, other fields
spread through. -/
def translateTemplate (lang : String) (oSub oBody : FetchOutcome) (t : Template) : Template :=
  { t with
    subject := (translateTextForce t.subject lang oSub).1,
    body := (translateTextForce t.body lang oBody).1 }

/-- `fetchTemplates()` (lines 281-305): shows the loading indicator, then
either assembles the translated dataset (the per-call outcomes supplied by
`oracle`) or, if the whole batch throws unexpectedly, falls back to
`[...customTemplates]`; both paths hide the loading indicator; finally
`populateCategories()` and `renderList()` (with default arguments) run. -/
def fetchTemplates (customTemplates : List Template)
    (oracle : Nat → FetchOutcome × FetchOutcome) (unexpectedFailure : Bool)
    (s : AppState) : AppState :=
  let s₁ := { s with loadingVisible := true }
  let s₂ :=
    if unexpectedFailure then
      { s₁ with templates := customTemplates, loadingVisible := false }
    else
      { s₁ with
        templates := customTemplates.mapIdx
          (fun i t => translateTemplate s.targetLang (oracle i).1 (oracle i).2 t),
        loadingVisible := false }
  let s₃ := { s₂ with categories := populateCategories s₂.templates }
  renderList "All" "" s₃

/-- C8: when the aggregate batch fails unexpectedly, `templates` becomes the
entirely untranslated source dataset; and the loading indicator ends hidden
on the success path and the fallback path alike. -/
theorem fetchTemplates_fallback_hides_loading (customTemplates : List Template)
    (oracle : Nat → FetchOutcome × FetchOutcome) (s : AppState) :
    (fetchTemplates customTemplates oracle true s).templates = customTemplates
    ∧ ∀ unexpectedFailure : Bool,
        (fetchTemplates customTemplates oracle unexpectedFailure s).loadingVisible = false := by
  constructor
  · rfl
  · intro b; cases b <;> rfl

/-! ## Stale modal index across list rebuilds -/

/-- A state with the modal open at index 1 of a two-element displayed list. -/
def sStaleW : AppState :=
  { templates := [tSales, tSupport], displayed := [tSales, tSupport], modalIndex := 1,
    targetLang := "en", categories := ["All", "Sales", "Support"], loadingVisible := false }

/-- C9: `renderList` leaves `modalIndex` unchanged by every rebuild; in
particular, rebuilding with the "Sales" filter while the modal is open at
index 1 leaves an open (nonnegative) index that is out of bounds for the new
one-element displayed list. -/
theorem renderList_leaves_modalIndex_unchanged :
    (∀ (filterCategory search : String) (s : AppState),
        (renderList filterCategory search s).modalIndex = s.modalIndex)
    ∧ (0 ≤ (renderList "Sales" "" sStaleW).modalIndex
        ∧ ((renderList "Sales" "" sStaleW).displayed.length : Int)
            ≤ (renderList "Sales" "" sStaleW).modalIndex) := by
  refine ⟨fun _ _ _ => rfl, ?_, ?_⟩ <;> decide

/-! ## Absent categories: dropdown vs. filter -/

/-- C10: a template whose category field is absent is listed in the dropdown
under the synthetic category "General", yet selecting "General" with an
empty search excludes it from `displayed`, because the filter compares the
raw absent category with "General". -/
theorem absent_category_listed_yet_unreachable
    (ts : List Template) (t : Template) (h : t ∈ ts) (hcat : t.category = none) :
    "General" ∈ populateCategories ts
    ∧ renderListPred "General" "" t = false
    ∧ ∀ s : AppState, s.templates = ts → t ∉ (renderList "General" "" s).displayed := by
  have hpred : renderListPred "General" "" t = false := by
    simp [renderListPred, hcat]
  refine ⟨?_, hpred, ?_⟩
  · have hmem := cat_mem_foldl_insertCat ts t h ["All"]
    rw [hcat] at hmem
    exact hmem
  · intro s _ hmemd
    rcases List.mem_filter.mp hmemd with ⟨-, hp⟩
    rw [hpred] at hp
    cases hp

/-- A template with no category field. -/
def tNoCatW : Template := { subject := "N", body := "nn", category := none }

/-- A fresh state holding only the category-less template. -/
def sNoCatW : AppState :=
  { templates := [tNoCatW], displayed := [], modalIndex := -1,
    targetLang := "en", categories := [], loadingVisible := false }

theorem absent_category_listed_yet_unreachable_witness :
    "General" ∈ populateCategories [tNoCatW]
    ∧ renderListPred "General" "" tNoCatW = false
    ∧ tNoCatW ∉ (renderList "General" "" sNoCatW).displayed := by
  have h := absent_category_listed_yet_unreachable [tNoCatW] tNoCatW
    (List.mem_singleton_self tNoCatW) rfl
  exact ⟨h.1, h.2.1, h.2.2 sNoCatW rfl⟩

/-! ## The translation fan-out as a trace model (src/script.js lines 286-292)

`fetchTemplates` runs `Promise.all(customTemplates.map(async t => ...))`.
Each async arrow function, for its template index `i`, executes in program
order: issue the subject-translation request, suspend until it resolves,
issue the body-translation request, suspend until it resolves, assemble the
translated record.  The event loop may interleave the suspended tasks of
different templates arbitrarily (network timing), but can never reorder the
events of one task.  A trace is admissible when it consists of exactly the
events of the `n` tasks and preserves each task's program order. -/

/-- Observable events of the fan-out. -/
inductive FanoutEvent where
  | issueSubjectCall (i : Nat)
  | subjectCallResolved (i : Nat)
  | issueBodyCall (i : Nat)
  | bodyCallResolved (i : Nat)
  | recordAssembled (i : Nat)
  deriving Repr, DecidableEq

/-- The program-order event sequence of the async arrow function for
template `i`: `const subject = await translateTextForce(t.subject, ...)`
then `const body = await translateTextForce(t.body, ...)` then
`return {...t, subject, body}`. -/
def templateTaskEvents (i : Nat) : List FanoutEvent :=
  [.issueSubjectCall i, .subjectCallResolved i, .issueBodyCall i,
   .bodyCallResolved i, .recordAssembled i]

/-- Admissible schedules of the fan-out over `n` templates: the trace is a
permutation of all task events and each task's program order is preserved
(its event row is a subsequence of the trace).  Because distinct tasks have
disjoint events, this is exactly the set of interleavings of the task
rows. -/
def admissibleFanoutTrace (n : Nat) (tr : List FanoutEvent) : Prop :=
  List.Perm tr ((List.range n).flatMap templateTaskEvents)
  ∧ ∀ i < n, List.Sublist (templateTaskEvents i) tr

/-- The template index an event belongs to. -/
def eventTemplate : FanoutEvent → Nat
  | .issueSubjectCall i => i
  | .subjectCallResolved i => i
  | .issueBodyCall i => i
  | .bodyCallResolved i => i
  | .recordAssembled i => i

lemma eventTemplate_of_mem_task {e : FanoutEvent} {i : Nat}
    (h : e ∈ templateTaskEvents i) : eventTemplate e = i := by
  simp only [templateTaskEvents, List.mem_cons, List.mem_singleton] at h
  rcases h with rfl | rfl | rfl | rfl | rfl | h
  · rfl
  · rfl
  · rfl
  · rfl
  · rfl
  · cases h

lemma nodup_templateTaskEvents (i : Nat) : (templateTaskEvents i).Nodup := by
  simp [templateTaskEvents]

lemma nodup_fanout_events (n : Nat) :
    ((List.range n).flatMap templateTaskEvents).Nodup := by
  induction n with
  | zero => simp
  | succ n ih =>
    rw [List.range_succ, List.flatMap_append]
    refine List.Nodup.append ih ?_ ?_
    · simpa using nodup_templateTaskEvents n
    · intro e he₁ he₂
      rcases List.mem_flatMap.mp he₁ with ⟨j, hj, hej⟩
      have hjn : j < n := List.mem_range.mp hj
      have h₁ := eventTemplate_of_mem_task hej
      have h₂ : eventTemplate e = n := by
        simp only [List.flatMap_cons, List.flatMap_nil, List.append_nil] at he₂
        exact eventTemplate_of_mem_task he₂
      omega

lemma admissible_one_eq (tr : List FanoutEvent)
    (h : admissibleFanoutTrace 1 tr) : tr = templateTaskEvents 0 := by
  rcases h with ⟨hperm, hsub⟩
  have hflat : (List.range 1).flatMap templateTaskEvents = templateTaskEvents 0 := rfl
  rw [hflat] at hperm
  have hlen : (templateTaskEvents 0).length = tr.length := by
    rw [hperm.length_eq]
  exact ((hsub 0 (by omega)).eq_of_length hlen).symm

/-- C7 counterexample: with a single template, the body-translation call is
never in flight concurrently with the subject call — no admissible schedule
issues the body call before the subject call has resolved, because the
async function awaits the subject translation first.  So the per-field
calls are not all issued concurrently. -/
theorem fanout_body_call_waits_for_subject :
    ¬ ∃ tr : List FanoutEvent,
        admissibleFanoutTrace 1 tr
        ∧ List.Sublist [FanoutEvent.issueBodyCall 0, FanoutEvent.subjectCallResolved 0] tr := by
  rintro ⟨tr, hadm, hpair⟩
  rw [admissible_one_eq tr hadm] at hpair
  exact absurd hpair (by decide)

/-- C7 (amended): every admissible schedule of the fan-out keeps each
template's program order — the subject call is issued, then resolves before
the body call is issued, which resolves before the record is assembled —
and the trace holds each event exactly once; across distinct templates the
program imposes no ordering dependency: schedules exist with either
template's work completing first. -/
theorem fanout_per_template_sequencing :
    (∀ (n : Nat) (tr : List FanoutEvent), admissibleFanoutTrace n tr →
      tr.Nodup
      ∧ ∀ i < n,
          List.Sublist [FanoutEvent.issueSubjectCall i, FanoutEvent.subjectCallResolved i,
            FanoutEvent.issueBodyCall i, FanoutEvent.bodyCallResolved i,
            FanoutEvent.recordAssembled i] tr)
    ∧ (∃ tr₁ tr₂ : List FanoutEvent,
        admissibleFanoutTrace 2 tr₁ ∧ admissibleFanoutTrace 2 tr₂
        ∧ List.Sublist [FanoutEvent.recordAssembled 0, FanoutEvent.issueSubjectCall 1] tr₁
        ∧ List.Sublist [FanoutEvent.recordAssembled 1, FanoutEvent.issueSubjectCall 0] tr₂) := by
  constructor
  · intro n tr hadm
    refine ⟨hadm.1.symm.nodup (nodup_fanout_events n), ?_⟩
    intro i hi
    exact hadm.2 i hi
  · refine ⟨templateTaskEvents 0 ++ templateTaskEvents 1,
      templateTaskEvents 1 ++ templateTaskEvents 0, ⟨?_, ?_⟩, ⟨?_, ?_⟩, ?_, ?_⟩
    · decide
    · intro i hi
      interval_cases i <;> decide
    · decide
    · intro i hi
      interval_cases i <;> decide
    · decide
    · decide

/-- The in-order schedule: all of template 0's work, then template 1's. -/
def trInOrder : List FanoutEvent := templateTaskEvents 0 ++ templateTaskEvents 1

theorem fanout_per_template_sequencing_witness :
    trInOrder.Nodup
    ∧ List.Sublist [FanoutEvent.issueSubjectCall 0, FanoutEvent.subjectCallResolved 0,
        FanoutEvent.issueBodyCall 0, FanoutEvent.bodyCallResolved 0,
        FanoutEvent.recordAssembled 0] trInOrder := by
  have hadm : admissibleFanoutTrace 2 trInOrder :=
    ⟨by decide, by intro i hi; interval_cases i <;> decide⟩
  have h := fanout_per_template_sequencing.1 2 trInOrder hadm
  exact ⟨h.1, h.2 0 (by omega)⟩

end EmailTemplates
